import Mathlib

/-!
Verification development for the asynchronous bridge of the pyrv8 repository
(`src/pyrv8/asyncio.py`).

The module adapts promises of an embedded JavaScript engine (the native
`pyrv8.pyrv8` extension: `JsContext`, `JsPromise`) to `asyncio` futures.
The native engine is not part of the Python sources, so its narrow interface
is modelled from the spec; everything else is translated from
`src/pyrv8/asyncio.py` and from the documented semantics of the host
future protocol (`asyncio.Future`) it subclasses.

Modelling choices:
* JavaScript values are modelled as integers (`Int`); this suffices for all
  claims, whose scenarios are numeric.
* The engine loop state is a tick counter.  A Foreign Promise Handle is
  modelled by the number of ticks after which it reports settled, together
  with its fixed outcome (a rejection payload or a fulfilment value).
* The `asyncio` future protocol is modelled as an explicit state machine:
  `Pending / SettledVal / SettledErr / Cancelled`; completion invokes the
  registered done callbacks (the adapter registers exactly one,
  `self._promises.remove`).  Exceptions escaping a done callback are
  swallowed and logged by the event loop; the model records them in a
  counter instead.
* Python object identity is modelled by indexing futures with natural
  numbers into a heap `futures : Nat → Promise`; the live set
  `self._promises` is the list of registered indices.
* A ghost counter `removals` on each future counts how many times a
  removal of that future from the live set was performed or attempted
  (`set.pop()` during `AsyncContext.cancel`, and `set.remove` from the
  one-shot done callback).
-/

/-- Python-level errors that the modelled code can raise or store. -/
inductive PyErr
  | runtimeError (msg : String)
  | typeError (msg : String)
  | keyError
  | invalidState
  | cancelledError
  | stopIteration
  | jsError (e : Int)
deriving DecidableEq, Repr

/-- Modelled from the spec: the Foreign Promise Handle (`JsPromise`) lives in
the native extension, not under the Python sources.  Per the spec it exposes
`step(driver) -> bool` (true once settled), `result()` and `exception()`.
A handle is modelled by the number of engine ticks after which it settles and
by its fixed outcome: `rejects = some e` means the computation rejects with
payload `e`; otherwise it fulfils with `value`. -/
structure JsPromise where
  ticksNeeded : Nat
  rejects : Option Int
  value : Int
deriving DecidableEq, Repr

/-- Modelled from the spec: `JsPromise.step` reports settled once the engine
loop has been advanced at least `ticksNeeded` ticks.  It is a query on the
engine loop state; the engine-side processing itself happens in `advance`. -/
def JsPromise.step (p : JsPromise) (ticks : Nat) : Bool :=
  decide (p.ticksNeeded ≤ ticks)

/-- State of a bridged future, following the `asyncio.Future` state machine:
pending, settled with a value, settled with an error, or cancelled. -/
inductive PState
  | pending
  | settledVal (v : Int)
  | settledErr (e : Int)
  | cancelled
deriving DecidableEq, Repr

/-- Whether the state is the pending one. -/
def PState.isPending : PState → Bool
  | .pending => true
  | _ => false

/-- The `Promise` object of `src/pyrv8/asyncio.py`: wraps one `JsPromise`
(`self._p`) and carries the host future state.  `removals` is a ghost counter
of removal events targeting this future in the live set. -/
structure Promise where
  p : JsPromise
  state : PState
  removals : Nat
deriving DecidableEq, Repr

/-- `asyncio.Future.done()`: true in any terminal state. -/
def Promise.done (f : Promise) : Bool :=
  !f.state.isPending

/-- The `AsyncContext` object: `ticks` models the engine loop state of the
native `self._ctx`, `futures` is the heap of `Promise` objects indexed by
identity, `promises` is the live set `self._promises` (list of registered
indices), and `cbKeyErrors` counts `KeyError`s raised inside the one-shot
done callback (swallowed and logged by the event loop). -/
structure AsyncContext where
  ticks : Nat
  futures : Nat → Promise
  promises : List Nat
  cbKeyErrors : Nat

/-- `AsyncContext.advance` / the native `JsContext.advance`: one engine tick.
The `wait_for_inspector` and `pump_v8_message_loop` flags only configure
engine-internal servicing and are abstracted away. -/
def AsyncContext.advance (ctx : AsyncContext) : AsyncContext :=
  { ctx with ticks := ctx.ticks + 1 }

/-- The one-shot completion callback `self._promises.remove` registered by
`AsyncContext.__init_promise` via `add_done_callback`: removes the future
from the live set.  `set.remove` raises `KeyError` when the element is
absent; the event loop swallows and logs exceptions from done callbacks, so
the model records the failure in `cbKeyErrors` instead of propagating it.
The ghost counter `removals` of the future is incremented by the attempt. -/
def runRemoveCb (ctx : AsyncContext) (i : Nat) : AsyncContext :=
  let f := ctx.futures i
  let futs := Function.update ctx.futures i { f with removals := f.removals + 1 }
  if i ∈ ctx.promises then
    { ctx with futures := futs, promises := ctx.promises.erase i }
  else
    { ctx with futures := futs, cbKeyErrors := ctx.cbKeyErrors + 1 }

/-- The `asyncio` settlement machinery used by the adapter
(`super().set_result`, `super().set_exception`, `Future.cancel`): move the
future to a terminal state, then run its done callbacks — the only callback
the adapter registers is `self._promises.remove`. -/
def setFutureDone (ctx : AsyncContext) (i : Nat) (st : PState) : AsyncContext :=
  runRemoveCb
    { ctx with futures := Function.update ctx.futures i { ctx.futures i with state := st } } i

/-- `Promise.__step`: advance the engine loop by one tick via the context,
then ask the wrapped handle whether it settled; if so, record the handle
exception when present (walrus test `if exc := self._p.exception():`),
otherwise record the handle result, through the superclass settlement path. -/
def stepPromise (ctx : AsyncContext) (i : Nat) : AsyncContext :=
  let c := ctx.advance
  let f := c.futures i
  if f.p.step c.ticks then
    match f.p.rejects with
    | some e => setFutureDone c i (.settledErr e)
    | none => setFutureDone c i (.settledVal f.p.value)
  else c

/-- Result of polling the `__await__` generator once: it suspends
(`yield self`), returns a value (`StopIteration(value)`), or raises. -/
inductive PollRes
  | yielded
  | ret (v : Int)
  | raised (e : PyErr)
deriving DecidableEq, Repr

/-- `asyncio.Future.result()` as seen by the poller. -/
def promiseResult (f : Promise) : PollRes :=
  match f.state with
  | .pending => .raised .invalidState
  | .settledVal v => .ret v
  | .settledErr e => .raised (.jsError e)
  | .cancelled => .raised .cancelledError

/-- Phase of the `Promise.__await__` generator: not yet started, suspended at
its single `yield self`, or exhausted. -/
inductive AwaitPhase
  | start
  | yielded
  | finished
deriving DecidableEq, Repr

/-- `Promise.__await__`, one poll of the generator.  From the start: if the
future is already done, return `self.result()`; otherwise set the blocking
flag, run `self.__step()` and `yield self` (unconditionally, even when the
step just settled the future).  When resumed after the yield: if the future
is still not done, raise `RuntimeError` (the generator never loops back to
step again); otherwise return `self.result()`.  Polling an exhausted
generator raises `StopIteration`. -/
def pollAwait (ph : AwaitPhase) (ctx : AsyncContext) (i : Nat) :
    AwaitPhase × AsyncContext × PollRes :=
  match ph with
  | .start =>
    if (ctx.futures i).done then (.finished, ctx, promiseResult (ctx.futures i))
    else (.yielded, stepPromise ctx i, .yielded)
  | .yielded =>
    if (ctx.futures i).done then (.finished, ctx, promiseResult (ctx.futures i))
    else (.finished, ctx, .raised (.runtimeError "await was not used with future"))
  | .finished => (.finished, ctx, .raised .stopIteration)

/-- `Promise.set_result`: unconditionally raises `RuntimeError`. -/
def Promise.set_result (_ : Promise) (_ : Int) : Except PyErr Promise :=
  .error (.runtimeError "Promise does not support set_result operation")

/-- `Promise.set_exception`: unconditionally raises `RuntimeError`. -/
def Promise.set_exception (_ : Promise) (_ : PyErr) : Except PyErr Promise :=
  .error (.runtimeError "Promise does not support set_exception operation")

/-- `AsyncContext.__init_promise`: its body begins with
`Promise(self, js, name=name)`, but `Promise.__init__` is declared as
`(self, context, p)` and accepts no `name` keyword, so the call raises
`TypeError` before anything is registered.  (Were construction to succeed,
the method also ends with a bare `return`, producing `None` rather than the
new `Promise`.)  The result type carries the would-be updated context and
returned value. -/
def AsyncContext.init_promise (_ : AsyncContext) (_ : JsPromise) (_ : Option String) :
    Except PyErr (AsyncContext × Option Nat) :=
  .error (.typeError "Promise got an unexpected keyword argument name")

/-- `AsyncContext.call_async`: the native `self._ctx.call_async(name, *args)`
produces a `JsPromise` handle (abstracted here as the `js` argument, since the
engine is not part of the Python sources) which is passed to
`__init_promise` together with `fut_name`. -/
def AsyncContext.call_async (ctx : AsyncContext) (js : JsPromise)
    (futName : Option String) : Except PyErr (AsyncContext × Option Nat) :=
  ctx.init_promise js futName

/-- `AsyncContext.call_module_async`: calls `self.__init_promise(handle)` with
the required positional argument `name` missing, which raises `TypeError` at
the call itself. -/
def AsyncContext.call_module_async (_ : AsyncContext) (_ : JsPromise) :
    Except PyErr (AsyncContext × Option Nat) :=
  .error (.typeError "init_promise missing required positional argument name")

/-- Modelled from the spec: the native `JsContext.eval` evaluates source text
and returns the resulting value; the repository test `test_context_eval`
asserts that evaluating `"5+5"` yields `10`. -/
def jsEvalModel (code : String) : Int :=
  if code = "5+5" then 10 else 0

/-- `AsyncContext.eval`: calls the native eval and drops its value — the
method body is `self._ctx.eval(code)` with no `return`, so it returns `None`
(modelled as `none`).  The native evaluator is passed in as `engineEval`. -/
def AsyncContext.eval (engineEval : String → Int) (code : String) : Option Int :=
  let _ := engineEval code
  none

/-- Result of polling the `AsyncContext.wait` generator once. -/
inductive WaitRes
  | suspended
  | finished
deriving DecidableEq, Repr

/-- Phase of the `AsyncContext.wait` generator: inside the while loop, or
past it (after the trailing unconditional `yield`). -/
inductive WaitPhase
  | loop
  | final
deriving DecidableEq, Repr

/-- `AsyncContext.wait`, one poll of the generator
(`while self._promises: self._ctx.advance(); yield` followed by one
unconditional `yield`).  In the loop phase: if the live set is non-empty,
advance one tick and suspend; once it is empty, perform the trailing yield
and suspend one last time.  The next poll finishes the generator. -/
def waitPoll (ph : WaitPhase) (ctx : AsyncContext) :
    WaitPhase × AsyncContext × WaitRes :=
  match ph with
  | .loop =>
    if ctx.promises = [] then (.final, ctx, .suspended)
    else (.loop, ctx.advance, .suspended)
  | .final => (.final, ctx, .finished)

/-- State of the context right after `f = self._promises.pop()` has yielded
the future `i`: the live set is down to `rest`, and the pop is counted as a
removal event on the popped future's ghost counter. -/
def popCtx (ctx : AsyncContext) (i : Nat) (rest : List Nat) : AsyncContext :=
  { ctx with promises := rest,
             futures := Function.update ctx.futures i
               { ctx.futures i with removals := (ctx.futures i).removals + 1 } }

/-- `AsyncContext.cancel` body:
`while self._promises: f = self._promises.pop(); if not f.done(): f.cancel()`.
Each iteration removes the popped element and the done callback never inserts,
so the initial size of the live set bounds the number of iterations; the
recursion is made structural on that bound.  `set.pop()` is modelled as
taking the head of the list.  `Future.cancel()` on a pending future moves it
to `Cancelled` and runs its done callbacks. -/
def cancelAux : Nat → AsyncContext → AsyncContext
  | 0, ctx => ctx
  | n + 1, ctx =>
    match ctx.promises with
    | [] => ctx
    | i :: rest =>
      if (ctx.futures i).done then cancelAux n (popCtx ctx i rest)
      else cancelAux n (setFutureDone (popCtx ctx i rest) i .cancelled)

/-- `AsyncContext.cancel`: cancels every promise still being awaited on. -/
def AsyncContext.cancel (ctx : AsyncContext) : AsyncContext :=
  cancelAux ctx.promises.length ctx

/-- `AsyncContext.__aexit__`: unconditionally calls `self.cancel()`, whatever
exception information (if any) the scope exit carries. -/
def AsyncContext.aexit (ctx : AsyncContext) (_ : Option PyErr) : AsyncContext :=
  ctx.cancel

/-- Iterate the `wait` generator a given number of polls, keeping phase and
context. -/
def waitRun : Nat → WaitPhase × AsyncContext → WaitPhase × AsyncContext
  | 0, s => s
  | n + 1, s =>
    let t := waitPoll s.1 s.2
    waitRun n (t.1, t.2.1)

/-- A pending bridged future whose handle fulfils with 42 after one tick. -/
def promW1 : Promise :=
  { p := { ticksNeeded := 1, rejects := none, value := 42 }, state := .pending, removals := 0 }

/-- Context holding `promW1` as future 0, registered in the live set. -/
def ctxW1 : AsyncContext :=
  { ticks := 0, futures := fun _ => promW1, promises := [0], cbKeyErrors := 0 }

/-- Context whose future 0 is pending on a handle that fulfils with 7 only
after two ticks. -/
def ctxC2 : AsyncContext :=
  { ticks := 0,
    futures := fun _ =>
      { p := { ticksNeeded := 2, rejects := none, value := 7 }, state := .pending, removals := 0 },
    promises := [0], cbKeyErrors := 0 }

/-- Context with a single pending future (handle still far from settling). -/
def ctxC3 : AsyncContext :=
  { ticks := 0,
    futures := fun _ =>
      { p := { ticksNeeded := 5, rejects := none, value := 1 }, state := .pending, removals := 0 },
    promises := [0], cbKeyErrors := 0 }

/-- Context whose future 0 is already settled with value 9 (and hence no
longer registered in the live set). -/
def ctxC5 : AsyncContext :=
  { ticks := 3,
    futures := fun n =>
      if n = 0 then
        { p := { ticksNeeded := 1, rejects := none, value := 9 }, state := .settledVal 9,
          removals := 1 }
      else
        { p := { ticksNeeded := 1, rejects := some 4, value := 0 }, state := .settledErr 4,
          removals := 1 },
    promises := [], cbKeyErrors := 0 }

/-- Context with a pending future 0 in the live set and an already settled
future 1 outside it. -/
def ctxC6 : AsyncContext :=
  { ticks := 0,
    futures := fun n =>
      if n = 0 then
        { p := { ticksNeeded := 2, rejects := none, value := 5 }, state := .pending, removals := 0 }
      else
        { p := { ticksNeeded := 1, rejects := none, value := 9 }, state := .settledVal 9,
          removals := 1 },
    promises := [0], cbKeyErrors := 0 }

/-- Context with one pending future whose handle settles after a single tick
(so K = 1 in the drain-termination claim). -/
def ctxC7 : AsyncContext :=
  { ticks := 0,
    futures := fun _ =>
      { p := { ticksNeeded := 1, rejects := none, value := 3 }, state := .pending, removals := 0 },
    promises := [0], cbKeyErrors := 0 }

/-- Context with an empty live set. -/
def ctxE : AsyncContext :=
  { ticks := 0, futures := fun _ => promW1, promises := [], cbKeyErrors := 0 }

/-! Helper lemmas about the settlement machinery. -/

theorem Promise.done_eq_false_iff (f : Promise) : f.done = false ↔ f.state = .pending := by
  cases h : f.state <;> simp [Promise.done, PState.isPending, h]

theorem setFutureDone_ticks (ctx : AsyncContext) (i : Nat) (st : PState) :
    (setFutureDone ctx i st).ticks = ctx.ticks := by
  unfold setFutureDone runRemoveCb
  by_cases h : i ∈ ctx.promises <;> simp [h]

theorem setFutureDone_futures_self (ctx : AsyncContext) (i : Nat) (st : PState) :
    (setFutureDone ctx i st).futures i =
      { ctx.futures i with state := st, removals := (ctx.futures i).removals + 1 } := by
  unfold setFutureDone runRemoveCb
  by_cases h : i ∈ ctx.promises <;>
    simp [h, Function.update_same]

theorem setFutureDone_futures_ne (ctx : AsyncContext) (i j : Nat) (st : PState) (h : j ≠ i) :
    (setFutureDone ctx i st).futures j = ctx.futures j := by
  unfold setFutureDone runRemoveCb
  by_cases hm : i ∈ ctx.promises <;>
    simp [hm, Function.update_noteq h]

theorem setFutureDone_promises_of_mem (ctx : AsyncContext) (i : Nat) (st : PState)
    (hm : i ∈ ctx.promises) :
    (setFutureDone ctx i st).promises = ctx.promises.erase i ∧
      (setFutureDone ctx i st).cbKeyErrors = ctx.cbKeyErrors := by
  unfold setFutureDone runRemoveCb
  simp [hm]

theorem setFutureDone_promises_of_not_mem (ctx : AsyncContext) (i : Nat) (st : PState)
    (hm : i ∉ ctx.promises) :
    (setFutureDone ctx i st).promises = ctx.promises ∧
      (setFutureDone ctx i st).cbKeyErrors = ctx.cbKeyErrors + 1 := by
  unfold setFutureDone runRemoveCb
  simp [hm]

theorem setFutureDone_promises_len (ctx : AsyncContext) (i : Nat) (st : PState) :
    (setFutureDone ctx i st).promises.length ≤ ctx.promises.length := by
  by_cases h : i ∈ ctx.promises
  · rw [(setFutureDone_promises_of_mem ctx i st h).1]
    exact List.length_erase_le i ctx.promises
  · rw [(setFutureDone_promises_of_not_mem ctx i st h).1]

theorem setFutureDone_mem_promises (ctx : AsyncContext) (i j : Nat) (st : PState)
    (hij : i ≠ j) (hm : i ∈ ctx.promises) : i ∈ (setFutureDone ctx j st).promises := by
  by_cases h : j ∈ ctx.promises
  · rw [(setFutureDone_promises_of_mem ctx j st h).1]
    exact (List.mem_erase_of_ne hij).mpr hm
  · rw [(setFutureDone_promises_of_not_mem ctx j st h).1]
    exact hm

theorem update_removals_state (g : Nat → Promise) (i j : Nat) (r : Nat) :
    ((Function.update g i { g i with removals := r }) j).state = (g j).state := by
  by_cases h : j = i
  · subst h; simp [Function.update_same]
  · simp [Function.update_noteq h]

theorem popCtx_promises (ctx : AsyncContext) (i : Nat) (rest : List Nat) :
    (popCtx ctx i rest).promises = rest := rfl

theorem popCtx_ticks (ctx : AsyncContext) (i : Nat) (rest : List Nat) :
    (popCtx ctx i rest).ticks = ctx.ticks := rfl

theorem popCtx_state (ctx : AsyncContext) (i : Nat) (rest : List Nat) (j : Nat) :
    ((popCtx ctx i rest).futures j).state = (ctx.futures j).state :=
  update_removals_state ctx.futures i j _

theorem popCtx_futures_ne (ctx : AsyncContext) (i : Nat) (rest : List Nat) (j : Nat)
    (h : j ≠ i) : (popCtx ctx i rest).futures j = ctx.futures j := by
  simp [popCtx, Function.update_noteq h]

/-! Helper lemmas about the cancellation sweep. -/

theorem cancelAux_succ (n : Nat) (ctx : AsyncContext) (i : Nat) (rest : List Nat)
    (hl : ctx.promises = i :: rest) :
    cancelAux (n + 1) ctx =
      if (ctx.futures i).done then cancelAux n (popCtx ctx i rest)
      else cancelAux n (setFutureDone (popCtx ctx i rest) i .cancelled) := by
  rw [cancelAux, hl]

theorem cancelAux_promises_nil (n : Nat) :
    ∀ ctx : AsyncContext, ctx.promises.length ≤ n → (cancelAux n ctx).promises = [] := by
  induction n with
  | zero =>
    intro ctx h
    have : ctx.promises = [] := List.eq_nil_of_length_eq_zero (Nat.le_zero.mp h)
    simpa [cancelAux] using this
  | succ n ih =>
    intro ctx h
    cases hl : ctx.promises with
    | nil =>
      rw [cancelAux, hl]
      exact hl
    | cons i rest =>
      have hlen : rest.length ≤ n := by
        rw [hl] at h
        simp at h
        omega
      rw [cancelAux_succ n ctx i rest hl]
      by_cases hd : (ctx.futures i).done
      · rw [if_pos hd]
        exact ih _ (by simpa [popCtx_promises] using hlen)
      · rw [if_neg hd]
        refine ih _ ?_
        have h1 := setFutureDone_promises_len (popCtx ctx i rest) i PState.cancelled
        rw [popCtx_promises] at h1
        exact le_trans h1 hlen

theorem cancelAux_state_frame (n : Nat) :
    ∀ (ctx : AsyncContext) (j : Nat),
      ((cancelAux n ctx).futures j).state = (ctx.futures j).state ∨
      ((ctx.futures j).state = .pending ∧
        ((cancelAux n ctx).futures j).state = .cancelled) := by
  induction n with
  | zero =>
    intro ctx j
    left
    simp [cancelAux]
  | succ n ih =>
    intro ctx j
    cases hl : ctx.promises with
    | nil =>
      left
      rw [cancelAux, hl]
    | cons i rest =>
      rw [cancelAux_succ n ctx i rest hl]
      by_cases hd : (ctx.futures i).done
      · rw [if_pos hd]
        rcases ih (popCtx ctx i rest) j with h | ⟨h1, h2⟩
        · rw [popCtx_state] at h
          exact Or.inl h
        · rw [popCtx_state] at h1
          exact Or.inr ⟨h1, h2⟩
      · rw [if_neg hd]
        have hpend : (ctx.futures i).state = .pending :=
          (Promise.done_eq_false_iff (ctx.futures i)).mp (by simpa using hd)
        by_cases hij : j = i
        · subst hij
          have hmid :
              ((setFutureDone (popCtx ctx j rest) j .cancelled).futures j).state =
                .cancelled := by
            simp [setFutureDone_futures_self]
          rcases ih (setFutureDone (popCtx ctx j rest) j .cancelled) j with h | ⟨_, h2⟩
          · exact Or.inr ⟨hpend, by rw [h, hmid]⟩
          · exact Or.inr ⟨hpend, h2⟩
        · have hmid :
              (setFutureDone (popCtx ctx i rest) i .cancelled).futures j = ctx.futures j := by
            rw [setFutureDone_futures_ne (popCtx ctx i rest) i j PState.cancelled hij,
              popCtx_futures_ne ctx i rest j hij]
          rcases ih (setFutureDone (popCtx ctx i rest) i .cancelled) j with h | ⟨h1, h2⟩
          · left
            rw [h, hmid]
          · right
            rw [hmid] at h1
            exact ⟨h1, h2⟩

theorem cancelAux_cancels (n : Nat) :
    ∀ (ctx : AsyncContext) (i : Nat), ctx.promises.length ≤ n → i ∈ ctx.promises →
      (ctx.futures i).state = .pending →
      ((cancelAux n ctx).futures i).state = .cancelled := by
  induction n with
  | zero =>
    intro ctx i h hm _
    have : ctx.promises = [] := List.eq_nil_of_length_eq_zero (Nat.le_zero.mp h)
    rw [this] at hm
    exact absurd hm (List.not_mem_nil i)
  | succ n ih =>
    intro ctx i h hm hp
    cases hl : ctx.promises with
    | nil =>
      rw [hl] at hm
      exact absurd hm (List.not_mem_nil i)
    | cons j rest =>
      have hlen : rest.length ≤ n := by
        rw [hl] at h
        simp at h
        omega
      rw [cancelAux_succ n ctx j rest hl]
      by_cases hij : i = j
      · subst hij
        have hd : (ctx.futures i).done = false := (Promise.done_eq_false_iff _).mpr hp
        rw [if_neg (by simp [hd])]
        have hmid :
            ((setFutureDone (popCtx ctx i rest) i .cancelled).futures i).state = .cancelled := by
          simp [setFutureDone_futures_self]
        rcases cancelAux_state_frame n (setFutureDone (popCtx ctx i rest) i .cancelled) i with
          hfr | ⟨_, h2⟩
        · rw [hfr, hmid]
        · exact h2
      · have hmr : i ∈ rest := by
          rw [hl] at hm
          rcases List.mem_cons.mp hm with h' | h'
          · exact absurd h' hij
          · exact h'
        by_cases hd : (ctx.futures j).done
        · rw [if_pos hd]
          refine ih (popCtx ctx j rest) i ?_ ?_ ?_
          · simpa [popCtx_promises] using hlen
          · simpa [popCtx_promises] using hmr
          · rw [popCtx_state]
            exact hp
        · rw [if_neg hd]
          refine ih (setFutureDone (popCtx ctx j rest) j .cancelled) i ?_ ?_ ?_
          · have h1 := setFutureDone_promises_len (popCtx ctx j rest) j PState.cancelled
            rw [popCtx_promises] at h1
            exact le_trans h1 hlen
          · exact setFutureDone_mem_promises (popCtx ctx j rest) i j PState.cancelled hij
              (by simpa [popCtx_promises] using hmr)
          · rw [setFutureDone_futures_ne (popCtx ctx j rest) j i PState.cancelled hij,
              popCtx_futures_ne ctx j rest i hij]
            exact hp

/-! Claim theorems. -/

/-- Claim C1: polling a pending Bridge Future from the start (the path
`Promise.__await__` takes through `Promise.__step`) performs exactly one
engine tick, then checks the wrapped handle at the post-tick state; when the
handle reports settled, the handle's rejection payload (when present) or
otherwise its result value becomes the future's terminal state — completion
is thereby reported to the host scheduler — while the poll itself suspends
normally instead of raising, so an engine-side rejection travels through the
settlement path rather than out of the poll. -/
theorem C1_poll_advances_and_settles (ctx : AsyncContext) (i : Nat)
    (hp : (ctx.futures i).state = .pending)
    (hm : i ∈ ctx.promises) (hn : ctx.promises.Nodup) :
    (pollAwait .start ctx i).2.2 = .yielded ∧
    (pollAwait .start ctx i).2.1.ticks = ctx.ticks + 1 ∧
    ((ctx.futures i).p.step (ctx.ticks + 1) = true →
      (((ctx.futures i).p.rejects = none →
          ((pollAwait .start ctx i).2.1.futures i).state =
            .settledVal (ctx.futures i).p.value) ∧
       (∀ e, (ctx.futures i).p.rejects = some e →
          ((pollAwait .start ctx i).2.1.futures i).state = .settledErr e) ∧
       i ∉ (pollAwait .start ctx i).2.1.promises)) := by
  have hd : (ctx.futures i).done = false := (Promise.done_eq_false_iff _).mpr hp
  have hpoll : pollAwait .start ctx i = (.yielded, stepPromise ctx i, .yielded) := by
    simp [pollAwait, hd]
  rw [hpoll]
  refine ⟨rfl, ?_, ?_⟩
  · unfold stepPromise
    dsimp only [AsyncContext.advance]
    by_cases hs : (ctx.futures i).p.step (ctx.ticks + 1) = true
    · rw [if_pos hs]
      cases hr : (ctx.futures i).p.rejects <;>
        simp [setFutureDone_ticks]
    · rw [if_neg hs]
  · intro hs
    unfold stepPromise
    dsimp only [AsyncContext.advance]
    rw [if_pos hs]
    have hmem : i ∈ (AsyncContext.mk (ctx.ticks + 1) ctx.futures ctx.promises
        ctx.cbKeyErrors).promises := hm
    refine ⟨?_, ?_, ?_⟩
    · intro hr
      rw [hr]
      simp [setFutureDone_futures_self]
    · intro e hr
      rw [hr]
      simp [setFutureDone_futures_self]
    · cases hr : (ctx.futures i).p.rejects <;>
      · dsimp only
        rw [(setFutureDone_promises_of_mem _ i _ hmem).1]
        exact List.Nodup.not_mem_erase hn

/-- Claim C1 witness: the theorem instantiated at `ctxW1`, whose future 0 is
pending on a handle that fulfils with 42 after one tick. -/
theorem C1_witness :
    (ctxW1.futures 0).state = .pending ∧ 0 ∈ ctxW1.promises ∧ ctxW1.promises.Nodup ∧
    ((pollAwait .start ctxW1 0).2.2 = .yielded ∧
     (pollAwait .start ctxW1 0).2.1.ticks = ctxW1.ticks + 1 ∧
     ((ctxW1.futures 0).p.step (ctxW1.ticks + 1) = true →
       (((ctxW1.futures 0).p.rejects = none →
           ((pollAwait .start ctxW1 0).2.1.futures 0).state =
             .settledVal (ctxW1.futures 0).p.value) ∧
        (∀ e, (ctxW1.futures 0).p.rejects = some e →
           ((pollAwait .start ctxW1 0).2.1.futures 0).state = .settledErr e) ∧
        0 ∉ (pollAwait .start ctxW1 0).2.1.promises))) :=
  ⟨rfl, by decide, by decide,
    C1_poll_advances_and_settles ctxW1 0 rfl (by decide) (by decide)⟩

/-- Claim C2 (divergence witness): future 0 of `ctxC2` wraps a handle that
settles only after two ticks.  The first poll of `__await__` ticks once and
suspends with the future still pending, but the second poll raises
`RuntimeError` without performing another tick — the bridge does not re-tick
and re-check on subsequent polls, so a handle settling after two ticks is
never observed settled. -/
theorem C2_second_poll_raises :
    (pollAwait .start ctxC2 0).2.2 = .yielded ∧
    (pollAwait .start ctxC2 0).2.1.ticks = 1 ∧
    ((pollAwait .start ctxC2 0).2.1.futures 0).state = .pending ∧
    (pollAwait (pollAwait .start ctxC2 0).1 (pollAwait .start ctxC2 0).2.1 0).2.2 =
      .raised (.runtimeError "await was not used with future") ∧
    (pollAwait (pollAwait .start ctxC2 0).1 (pollAwait .start ctxC2 0).2.1 0).2.1.ticks = 1 := by
  decide

/-- Claim C4 (divergence witness): `call_async` always raises `TypeError`,
because `__init_promise` constructs `Promise(self, js, name=name)` while
`Promise.__init__` accepts no `name` parameter; `call_module_async` likewise
raises `TypeError` by omitting the required `name` argument of
`__init_promise`.  No Bridge Future is registered or returned on either
path. -/
theorem C4_call_async_type_error (ctx : AsyncContext) (js : JsPromise)
    (futName : Option String) :
    ctx.call_async js futName =
      .error (.typeError "Promise got an unexpected keyword argument name") ∧
    ctx.call_module_async js =
      .error (.typeError "init_promise missing required positional argument name") :=
  ⟨rfl, rfl⟩

/-- Claim C5: once a Bridge Future is settled, any poll of its `__await__`
generator — from the start of a fresh `await` or at the resume point — leaves
the context untouched (zero additional engine ticks) and delivers the
identical cached outcome: the stored value for a fulfilled future, the stored
error for a rejected one. -/
theorem C5_settled_poll_idempotent (ph : AwaitPhase) (ctx : AsyncContext) (i : Nat)
    (hph : ph ≠ .finished) :
    (∀ v, (ctx.futures i).state = .settledVal v →
        pollAwait ph ctx i = (.finished, ctx, .ret v)) ∧
    (∀ e, (ctx.futures i).state = .settledErr e →
        pollAwait ph ctx i = (.finished, ctx, .raised (.jsError e))) := by
  constructor
  · intro v hv
    have hd : (ctx.futures i).done = true := by
      simp [Promise.done, hv, PState.isPending]
    cases ph with
    | start => simp [pollAwait, hd, promiseResult, hv]
    | yielded => simp [pollAwait, hd, promiseResult, hv]
    | finished => exact absurd rfl hph
  · intro e he
    have hd : (ctx.futures i).done = true := by
      simp [Promise.done, he, PState.isPending]
    cases ph with
    | start => simp [pollAwait, hd, promiseResult, he]
    | yielded => simp [pollAwait, hd, promiseResult, he]
    | finished => exact absurd rfl hph

/-- Claim C5 witness: the theorem instantiated at `ctxC5`, whose future 0 is
settled with value 9 and whose future 1 is settled with error 4. -/
theorem C5_witness :
    AwaitPhase.start ≠ AwaitPhase.finished ∧
    (ctxC5.futures 0).state = .settledVal 9 ∧
    pollAwait .start ctxC5 0 = (.finished, ctxC5, .ret 9) ∧
    (ctxC5.futures 1).state = .settledErr 4 ∧
    pollAwait .start ctxC5 1 = (.finished, ctxC5, .raised (.jsError 4)) :=
  ⟨by decide, by decide,
    (C5_settled_poll_idempotent .start ctxC5 0 (by decide)).1 9 (by decide),
    by decide,
    (C5_settled_poll_idempotent .start ctxC5 1 (by decide)).2 4 (by decide)⟩

/-- Claim C8: forcing a terminal value or error onto a Bridge Future from
outside the adapter fails loudly — `Promise.set_result` and
`Promise.set_exception` raise `RuntimeError` for every future in every state
and never produce an updated future. -/
theorem C8_forced_settlement_raises (f : Promise) (v : Int) (e : PyErr) :
    f.set_result v =
      .error (.runtimeError "Promise does not support set_result operation") ∧
    f.set_exception e =
      .error (.runtimeError "Promise does not support set_exception operation") :=
  ⟨rfl, rfl⟩

/-- Claim C9 (divergence witness): the engine evaluates `"5+5"` to 10 (per the
repository's own test of the synchronous path), but `AsyncContext.eval`
discards the engine's value — its body has no `return` — and yields `None`,
not the evaluation result. -/
theorem C9_eval_returns_none :
    jsEvalModel "5+5" = 10 ∧
    AsyncContext.eval jsEvalModel "5+5" = none ∧
    AsyncContext.eval jsEvalModel "5+5" ≠ some (jsEvalModel "5+5") := by
  decide

/-- Claim C10: the first poll of the `wait()` generator always suspends —
even when the live set is already empty, the unconditional trailing `yield`
after the drain loop hands control back to the host scheduler at least once
before `wait()` returns. -/
theorem C10_wait_first_poll_suspends (ctx : AsyncContext) :
    (waitPoll .loop ctx).2.2 = .suspended := by
  by_cases h : ctx.promises = [] <;> simp [waitPoll, h]

/-- Claim C7 counterexample: in `ctxC7` the single live future wraps a handle
that settles within K = 1 tick (its `step` reports settled from tick 1 on),
yet three polls of `wait()` later — three engine advances, well beyond K —
the generator is still suspended inside its drain loop and the live set is
unchanged: `wait()` never completes or removes futures itself, so handle
settlement alone cannot terminate it. -/
theorem C7_counterexample :
    (ctxC7.futures 0).p.step 1 = true ∧
    (waitRun 1 (.loop, ctxC7)).1 = .loop ∧
    (waitRun 3 (.loop, ctxC7)).1 = .loop ∧
    (waitRun 3 (.loop, ctxC7)).2.ticks = 3 ∧
    (waitRun 3 (.loop, ctxC7)).2.promises = [0] ∧
    (waitPoll (waitRun 3 (.loop, ctxC7)).1 (waitRun 3 (.loop, ctxC7)).2).2.2 =
      .suspended := by
  decide

/-- Claim C7 (amended): a poll of `wait()` with a non-empty live set advances
the engine exactly one tick, suspends, and leaves the live set unchanged —
the drain loop never completes or deregisters futures by itself, so it is not
bounded by the ticks the handles need; once the live set is empty the loop is
left, one trailing yield suspends, and the next poll returns. -/
theorem C7_wait_behavior (ctx : AsyncContext) :
    (ctx.promises = [] →
       waitPoll .loop ctx = (.final, ctx, .suspended) ∧
       waitPoll .final ctx = (.final, ctx, .finished)) ∧
    (ctx.promises ≠ [] →
       (waitPoll .loop ctx).1 = .loop ∧
       (waitPoll .loop ctx).2.1.ticks = ctx.ticks + 1 ∧
       (waitPoll .loop ctx).2.1.promises = ctx.promises ∧
       (waitPoll .loop ctx).2.2 = .suspended) := by
  constructor
  · intro h
    simp [waitPoll, h]
  · intro h
    simp [waitPoll, h, AsyncContext.advance]

/-- Claim C7 witness: the amended theorem instantiated at the empty-live-set
context `ctxE`. -/
theorem C7_witness :
    ctxE.promises = [] ∧
    (waitPoll .loop ctxE = (.final, ctxE, .suspended) ∧
     waitPoll .final ctxE = (.final, ctxE, .finished)) :=
  ⟨rfl, (C7_wait_behavior ctxE).1 rfl⟩

/-- Claim C3 counterexample: cancelling the single pending future of `ctxC3`
through `AsyncContext.cancel` removes it from the live set twice over — once
by `set.pop()` and once (attempted) by the one-shot completion callback,
which finds the set already empty and raises `KeyError` — so the removal is
not performed exactly once via the completion notification. -/
theorem C3_counterexample :
    ((ctxC3.cancel).futures 0).removals = 2 ∧
    (ctxC3.cancel).cbKeyErrors = 1 ∧
    ¬ ((ctxC3.cancel).futures 0).removals = 1 := by
  decide

/-- Claim C3 (amended): a registered future that leaves `Pending` through the
settlement machinery is removed from the live set exactly once, by its
one-shot completion callback, with no `KeyError`; but a future terminated by
`AsyncContext.cancel` is removed by the `pop` preceding the cancellation, and
its completion callback then makes a second removal attempt that raises
`KeyError` (swallowed by the event loop) — two removal events on that path
instead of one. -/
theorem C3_removal_paths (ctx : AsyncContext) (i : Nat) (st : PState)
    (hm : i ∈ ctx.promises) (hn : ctx.promises.Nodup) :
    (setFutureDone ctx i st).promises = ctx.promises.erase i ∧
    i ∉ (setFutureDone ctx i st).promises ∧
    (setFutureDone ctx i st).cbKeyErrors = ctx.cbKeyErrors ∧
    ((setFutureDone ctx i st).futures i).removals = (ctx.futures i).removals + 1 ∧
    (ctx.promises = [i] → (ctx.futures i).state = .pending →
       (ctx.cancel).promises = [] ∧
       (ctx.cancel).cbKeyErrors = ctx.cbKeyErrors + 1 ∧
       ((ctx.cancel).futures i).removals = (ctx.futures i).removals + 2 ∧
       ((ctx.cancel).futures i).state = .cancelled) := by
  obtain ⟨hpm, hke⟩ := setFutureDone_promises_of_mem ctx i st hm
  refine ⟨hpm, ?_, hke, ?_, ?_⟩
  · rw [hpm]
    exact List.Nodup.not_mem_erase hn
  · simp [setFutureDone_futures_self]
  · intro hl hp
    have hd : (ctx.futures i).done = false := (Promise.done_eq_false_iff _).mpr hp
    have hcancel : ctx.cancel = setFutureDone (popCtx ctx i []) i .cancelled := by
      unfold AsyncContext.cancel
      rw [hl]
      show cancelAux (0 + 1) ctx = _
      rw [cancelAux_succ 0 ctx i [] hl, if_neg (by simp [hd])]
      rfl
    have hnotmem : i ∉ (popCtx ctx i []).promises := by
      rw [popCtx_promises]
      exact List.not_mem_nil i
    obtain ⟨hpm2, hke2⟩ := setFutureDone_promises_of_not_mem (popCtx ctx i []) i
      PState.cancelled hnotmem
    refine ⟨?_, ?_, ?_, ?_⟩
    · rw [hcancel, hpm2, popCtx_promises]
    · rw [hcancel, hke2]
      rfl
    · rw [hcancel]
      simp [setFutureDone_futures_self, popCtx, Function.update_same]
    · rw [hcancel]
      simp [setFutureDone_futures_self]

/-- Claim C3 witness: the amended theorem instantiated at `ctxC3` (one
pending future, index 0, in the live set). -/
theorem C3_witness :
    0 ∈ ctxC3.promises ∧ ctxC3.promises.Nodup ∧
    (setFutureDone ctxC3 0 (.settledVal 5)).promises = ctxC3.promises.erase 0 ∧
    ((ctxC3.cancel).futures 0).removals = (ctxC3.futures 0).removals + 2 := by
  have h := C3_removal_paths ctxC3 0 (.settledVal 5) (by decide) (by decide)
  exact ⟨by decide, by decide, h.1, (h.2.2.2.2 rfl rfl).2.2.1⟩

/-- Claim C6: after `AsyncContext.cancel` the live set is empty; every future
that was registered and pending when it was invoked ends in the `Cancelled`
state; every future that was already terminal (settled or cancelled) keeps
its state unchanged, cancellation of a done future being a no-op; and
`__aexit__` — run on leaving the managed scope, normally or with an
exception — is exactly a call to `cancel`. -/
theorem C6_cancel_all_post (ctx : AsyncContext) :
    (ctx.cancel).promises = [] ∧
    (∀ i, i ∈ ctx.promises → (ctx.futures i).state = .pending →
       ((ctx.cancel).futures i).state = .cancelled) ∧
    (∀ j, (ctx.futures j).state ≠ .pending →
       ((ctx.cancel).futures j).state = (ctx.futures j).state) ∧
    (∀ exc, ctx.aexit exc = ctx.cancel) := by
  refine ⟨cancelAux_promises_nil _ ctx le_rfl,
    fun i hm hp => cancelAux_cancels _ ctx i le_rfl hm hp,
    fun j hj => ?_, fun _ => rfl⟩
  rcases cancelAux_state_frame ctx.promises.length ctx j with h | ⟨h1, _⟩
  · exact h
  · exact absurd h1 hj

/-- Claim C6 witness: the theorem instantiated at `ctxC6`, whose live set
holds the pending future 0 while future 1 is already settled with value 9. -/
theorem C6_witness :
    0 ∈ ctxC6.promises ∧ (ctxC6.futures 0).state = .pending ∧
    (ctxC6.futures 1).state ≠ .pending ∧
    (ctxC6.cancel).promises = [] ∧
    ((ctxC6.cancel).futures 0).state = .cancelled ∧
    ((ctxC6.cancel).futures 1).state = (ctxC6.futures 1).state := by
  obtain ⟨h1, h2, h3, _⟩ := C6_cancel_all_post ctxC6
  exact ⟨by decide, by decide, by decide, h1, h2 0 (by decide) (by decide),
    h3 1 (by decide)⟩
